import Mathlib

/-!
Shallow embedding of the crawl-and-transform engine of the `xwdocs` repository
(`src/core/doc.rs`, `src/core/scraper/url_scraper.rs`,
`src/core/scraper/rate_limiter.rs`, `src/core/scraper/fix_redirections.rs`,
`src/core/scraper/filter.rs`, `src/core/index_entry.rs`), together with
theorems settling the specification claims about it.

Modelling conventions:
* Rust `String` is Lean `String` (Rust `String` ordering is byte-wise
  lexicographic on UTF-8, which coincides with code-point lexicographic
  order, i.e. Lean's `compare`).
* `HashMap<String, V>` is an association list `List (String × V)` with
  unique keys; `HashMap::insert` replaces in place or appends
  (`ainsert`), `get` is `alookup`, `remove` is `alookup` + `aerase`.
  Hash-map iteration order is modelled by the list order.
* `HashSet<T>` is a duplicate-free `List T`.
* Fallible Rust code (`Result<T>`) is `Except String T`.
* Effectful collaborators (the `regex` crate, `url::Url::parse`, HTTP
  fetching, the HTML `a[href]` selector) are oracles carried in a
  `CrawlEnv` record, so that every embedded function stays executable.
-/

/-! ## Kernel-reducible string helpers

Core `String` functions such as `String.toLower`, `String.startsWith`,
`String.drop` and `String.replace` are position-based and do not reduce
definitionally, so the embedding uses these character-list versions, which
agree with the Rust originals (Rust string comparisons and prefix tests are
byte-wise on UTF-8, which coincides with character-wise; `Char.toLower`
lowercases ASCII letters, which covers every string these claims touch). -/

/-- Rust `str::starts_with`. -/
def startsWithStr (s pat : String) : Bool :=
  pat.toList.isPrefixOf s.toList

/-- Rust `str::ends_with`. -/
def endsWithStr (s pat : String) : Bool :=
  pat.toList.reverse.isPrefixOf s.toList.reverse

/-- Rust `&s[n..]` / character dropping. -/
def dropStr (s : String) (n : Nat) : String :=
  String.mk (s.toList.drop n)

/-- Rust `str::to_lowercase`. -/
def toLowerStr (s : String) : String :=
  String.mk (s.toList.map Char.toLower)

/-- Rust `str::replace` with a char pattern. -/
def replaceChar (s : String) (c : Char) (r : String) : String :=
  String.join (s.toList.map (fun ch => if ch = c then r else String.singleton ch))

/-! ## Association-list model of `std::collections::HashMap<String, V>` -/

/-- `HashMap::get`. -/
def alookup {α : Type} : List (String × α) → String → Option α
  | [], _ => none
  | (k', v') :: rest, k => if k' = k then some v' else alookup rest k

/-- `HashMap::insert`: replace the value at an existing key in place,
otherwise append a fresh binding. -/
def ainsert {α : Type} : List (String × α) → String → α → List (String × α)
  | [], k, v => [(k, v)]
  | (k', v') :: rest, k, v =>
    if k' = k then (k, v) :: rest else (k', v') :: ainsert rest k v

/-- `HashMap::remove` (dropping the returned value): erase the binding of a key. -/
def aerase {α : Type} : List (String × α) → String → List (String × α)
  | [], _ => []
  | (k', v') :: rest, k => if k' = k then rest else (k', v') :: aerase rest k

/-! ## `src/core/index_entry.rs` -/

/-- `IndexEntry` (src/core/index_entry.rs lines 3-9): one searchable
(name, path, type) triple. -/
structure IndexEntry where
  name : String
  path : String
  entry_type : String
deriving DecidableEq, Repr

/-- `IndexType` (src/core/index_entry.rs lines 11-16): a per-type summary. -/
structure IndexType where
  name : String
  count : Nat
  slug : String
deriving DecidableEq, Repr

/-! ## `src/core/doc.rs`: `EntryIndex` -/

/-- `EntryIndex` (src/core/doc.rs lines 87-92).  The Rust `index` field is a
`HashSet<String>` holding `serde_json::to_string(&entry)`; that serialization
is injective on the (name, path, type) triple (fixed field order, injective
JSON string escaping), so the set of serialized strings is modelled as a
duplicate-free list of the triples themselves.  `types` is
`HashMap<String, IndexType>`. -/
structure EntryIndex where
  entries : List IndexEntry
  index : List IndexEntry
  types : List (String × IndexType)
deriving DecidableEq, Repr

/-- `EntryIndex::new` (src/core/doc.rs lines 95-102). -/
def EntryIndex.new : EntryIndex :=
  { entries := [], index := [], types := [] }

/-- The in-place `entry_type.count += 1` performed through
`self.types.get_mut(&entry.entry_type)` (src/core/doc.rs lines 109-110). -/
def incrementType : List (String × IndexType) → String → List (String × IndexType)
  | [], _ => []
  | (k', v) :: rest, k =>
    if k' = k then (k', { v with count := v.count + 1 }) :: rest
    else (k', v) :: incrementType rest k

/-- `EntryIndex::add` (src/core/doc.rs lines 104-123): dedup on the serialized
triple; on a fresh triple, bump (or create with count 1) the type summary and
push the entry. -/
def EntryIndex.add (idx : EntryIndex) (entry : IndexEntry) : EntryIndex :=
  if entry ∈ idx.index then idx
  else
    { entries := idx.entries ++ [entry],
      index := entry :: idx.index,
      types :=
        match alookup idx.types entry.entry_type with
        | some _ => incrementType idx.types entry.entry_type
        | none =>
            idx.types ++
              [(entry.entry_type,
                { name := entry.entry_type, count := 1,
                  slug := toLowerStr entry.entry_type })] }

/-- `EntryIndex::add_multiple` (src/core/doc.rs lines 126-130) applied to a
fresh `EntryIndex::new()`: the states reachable by any sequence of `add`s. -/
def EntryIndex.addAll (l : List IndexEntry) : EntryIndex :=
  l.foldl EntryIndex.add EntryIndex.new

/-- Count recorded for a type key (0 when the key has no summary yet);
used to state how `add` moves the `types` map. -/
def typeCount (types : List (String × IndexType)) (k : String) : Nat :=
  match alookup types k with
  | some t => t.count
  | none => 0

/-- Sum of all type counters of an `EntryIndex.types` map. -/
def sumCounts (types : List (String × IndexType)) : Nat :=
  (types.map (fun kt => kt.2.count)).sum

/-! ## `src/core/doc.rs`: natural sort -/

/-- One step of the character loop of `split_ints`
(src/core/doc.rs lines 397-408).  State: (result, current, last_was_digit). -/
def split_ints_step (acc : List String × String × Bool) (c : Char) :
    List String × String × Bool :=
  let result := acc.1
  let current := acc.2.1
  let lastWasDigit := acc.2.2
  let isDigit := c.isDigit
  if isDigit && !lastWasDigit && !current.isEmpty then
    (result ++ [current], String.singleton c, isDigit)
  else
    (result, current.push c, isDigit)

/-- `split_ints` (src/core/doc.rs lines 393-415): split a name at each
position where a digit follows a non-digit. -/
def split_ints (s : String) : List String :=
  let fin := s.toList.foldl split_ints_step ([], "", false)
  if fin.2.1.isEmpty then fin.1 else fin.1 ++ [fin.2.1]

/-- Rust `str::parse::<u32>()`: optional leading `+`, then one or more
digits, rejecting overflow past `u32::MAX`. -/
def parse_u32 (s : String) : Option Nat :=
  let ds := match s.toList with
    | '+' :: rest => rest
    | cs => cs
  if ds.isEmpty || !ds.all (·.isDigit) then none
  else
    let n := ds.foldl (fun n c => n * 10 + (c.toNat - 48)) 0
    if n < 4294967296 then some n else none

/-- The per-run mapping of `sort_entries` (src/core/doc.rs lines 442-460):
the final run is kept verbatim, every earlier run is
`parse::<u32>().unwrap_or(0).to_string()`. -/
def process_run (len : Nat) (iv : Nat × String) : String :=
  if iv.1 == len - 1 then iv.2 else toString ((parse_u32 iv.2).getD 0)

/-- `Vec::insert(len - 1, "0")`: insert an element just before the last one. -/
def insert_before_last (l : List String) (x : String) : List String :=
  l.take (l.length - 1) ++ [x] ++ l.drop (l.length - 1)

/-- The length-equalising loop of `sort_entries`
(src/core/doc.rs lines 463-471): insert `"0"` before the last run `n` times. -/
def pad_runs (l : List String) (n : Nat) : List String :=
  (List.range n).foldl (fun acc _ => insert_before_last acc "0") l

/-- Rust `Vec::cmp`: lexicographic comparison, element-wise by `String` order. -/
def cmp_string_list : List String → List String → Ordering
  | [], [] => .eq
  | [], _ :: _ => .lt
  | _ :: _, [] => .gt
  | a :: as_, b :: bs =>
    match compare a b with
    | .eq => cmp_string_list as_ bs
    | o => o

/-- `sort_entries` (src/core/doc.rs lines 418-477), the comparator used to
order entries and type summaries by name. -/
def sort_entries (a b : String) : Ordering :=
  let a_first := (a.toList.head?.map Char.isDigit).getD false
  let b_first := (b.toList.head?.map Char.isDigit).getD false
  if a_first || b_first then
    let a_split := split_ints a
    let b_split := split_ints b
    let a_len := a_split.length
    let b_len := b_split.length
    if a_len == 1 && b_len == 1 then compare (toLowerStr a) (toLowerStr b)
    else if a_len == 1 then .gt
    else if b_len == 1 then .lt
    else
      let a_processed := a_split.enum.map (process_run a_len)
      let b_processed := b_split.enum.map (process_run b_len)
      let a_processed :=
        if b_len > a_len then pad_runs a_processed (b_len - a_len) else a_processed
      let b_processed :=
        if a_len > b_len then pad_runs b_processed (a_len - b_len) else b_processed
      cmp_string_list a_processed b_processed
  else
    compare (toLowerStr a) (toLowerStr b)

/-! ## `src/core/scraper/rate_limiter.rs`

Real time is modelled by explicit clock readings in milliseconds since the
Unix epoch: `now` is the reading taken on entry to `wait` (the source reads
the clock twice within microseconds, at lines 44 and 56); `tEnd` is the
reading taken when `wait` returns (lines 67 and 79, after any sleep).
`Instant`s are readings of the same clock. -/

/-- `RateLimiter::current_minute` (src/core/scraper/rate_limiter.rs
lines 31-34): seconds since the epoch divided by 60. -/
def minuteOf (ms : Nat) : Nat := ms / 1000 / 60

/-- `RateLimiter` (src/core/scraper/rate_limiter.rs lines 8-17). -/
structure RateLimiter where
  limit : Nat
  current_minute : Nat
  counter : Nat
  last_request_time : Option Nat
deriving DecidableEq, Repr

/-- `RateLimiter::new` (src/core/scraper/rate_limiter.rs lines 21-28),
called at clock reading `nowMs`. -/
def RateLimiter.new (limit nowMs : Nat) : RateLimiter :=
  { limit := limit, current_minute := minuteOf nowMs, counter := 0,
    last_request_time := none }

/-- The suspension performed by one `wait()` call. -/
inductive WaitAction where
  /-- No sleep at all. -/
  | none
  /-- `sleep(100ms - elapsed)` (line 74): the minimum inter-request spacing. -/
  | sleepSpacing (ms : Nat)
  /-- `sleep(Duration::from_secs(61 - current_seconds))` (lines 61-64):
  suspension until the next minute boundary plus a one-second margin. -/
  | sleepUntilNextMinute (seconds : Nat)
deriving DecidableEq, Repr

/-- `RateLimiter::wait` (src/core/scraper/rate_limiter.rs lines 42-80):
roll the minute over, increment the counter, and either suspend until the
next minute (when the counter meets the limit) or enforce the 100ms
spacing.  Returns the new state and the suspension performed. -/
def RateLimiter.wait (rl : RateLimiter) (now tEnd : Nat) : RateLimiter × WaitAction :=
  let rl :=
    if minuteOf now ≠ rl.current_minute then
      { rl with current_minute := minuteOf now, counter := 0 }
    else rl
  let rl := { rl with counter := rl.counter + 1 }
  if rl.limit ≤ rl.counter then
    let current_seconds := now / 1000 % 60
    let wait_seconds := 61 - current_seconds
    ({ rl with current_minute := minuteOf tEnd, counter := 1,
               last_request_time := some tEnd },
     .sleepUntilNextMinute wait_seconds)
  else
    let action :=
      match rl.last_request_time with
      | some last =>
          if now - last < 100 then WaitAction.sleepSpacing (100 - (now - last))
          else WaitAction.none
      | none => WaitAction.none
    ({ rl with last_request_time := some tEnd }, action)

/-- Iterate `wait` over a list of (entry clock reading, return clock
reading) pairs, collecting the suspensions. -/
def RateLimiter.iterWait (rl : RateLimiter) :
    List (Nat × Nat) → RateLimiter × List WaitAction
  | [] => (rl, [])
  | (now, tEnd) :: rest =>
    let step := rl.wait now tEnd
    let fin := step.1.iterWait rest
    (fin.1, step.2 :: fin.2)

/-- A suspension that stays clear of the until-next-minute wait and delays
at most the 100ms minimum inter-request spacing. -/
def WaitAction.withinSpacing : WaitAction → Prop
  | .none => True
  | .sleepSpacing ms => ms ≤ 100
  | .sleepUntilNextMinute _ => False

/-! ## `src/core/scraper/fix_redirections.rs`

`url::Url::parse(url).path()` is modelled by an oracle
`parseUrl : String → Option String` returning the path component, `none`
meaning a parse error. -/

/-- `FixRedirections` (src/core/scraper/fix_redirections.rs lines 14-16);
the `Arc<Mutex<HashMap>>` of recorded redirections collapses to its map. -/
structure FixRedirections where
  redirections : List (String × String)

/-- `FixRedirections::path_from_url` (src/core/scraper/fix_redirections.rs
lines 47-52). -/
def FixRedirections.path_from_url (parseUrl : String → Option String)
    (url : String) : Except String String :=
  match parseUrl url with
  | some p => .ok p
  | none => .error ("unable to parse URL: " ++ url)

/-- The first loop of `apply_redirections_to_paths`
(src/core/scraper/fix_redirections.rs lines 62-71): derive both paths
(propagating parse errors) and remember `from_path.to_lowercase() → to_path`
whenever the two paths differ. -/
def buildPathRedirections (parseUrl : String → Option String) :
    List (String × String) → List (String × String) →
    Except String (List (String × String))
  | [], acc => .ok acc
  | (from_url, to_url) :: rest, acc =>
    match FixRedirections.path_from_url parseUrl from_url with
    | .error e => .error e
    | .ok from_path =>
      match FixRedirections.path_from_url parseUrl to_url with
      | .error e => .error e
      | .ok to_path =>
        buildPathRedirections parseUrl rest
          (if from_path ≠ to_path then ainsert acc (toLowerStr from_path) to_path
           else acc)

/-- One iteration of the second loop of `apply_redirections_to_paths`
(src/core/scraper/fix_redirections.rs lines 76-82): if the lowercased key
has a remembered redirection, move its content to the redirected key. -/
def applyRedirectStep (path_redirections : List (String × String))
    (cur : List (String × String)) (path : String) : List (String × String) :=
  match alookup path_redirections (toLowerStr path) with
  | some redirect_path =>
    match alookup cur path with
    | some content => ainsert (aerase cur path) redirect_path content
    | none => cur
  | none => cur

/-- `FixRedirections::apply_redirections_to_paths`
(src/core/scraper/fix_redirections.rs lines 55-85): build the remembered
path redirections, then rewrite the page map, iterating over a snapshot
(`paths.clone()`) of its bindings. -/
def FixRedirections.apply_redirections_to_paths
    (parseUrl : String → Option String) (fr : FixRedirections)
    (paths : List (String × String)) : Except String (List (String × String)) :=
  match buildPathRedirections parseUrl fr.redirections [] with
  | .error e => .error e
  | .ok path_redirections =>
    .ok (paths.foldl (fun cur kv => applyRedirectStep path_redirections cur kv.1) paths)

/-! ## `src/core/scraper/filter.rs` -/

/-- `FilterContext` (src/core/scraper/filter.rs lines 11-46). -/
structure FilterContext where
  options : List (String × String)
  base_url : String
  links : List String
  root_url : String
  root_path : String
  version : String
  release : String
  initial_paths : List String
  slug : String
  current_path : String
  current_url : String
  attribution : Option String
  html : String
  title : String
  content : String
  additional_entries : List (String × String × String)

/-- A `Box<dyn Filter>` as used by `UrlScraper::run`: its
`apply(&html, &mut context) -> Result<String>` method, returning the
filtered HTML and the mutated context.  (Named `HtmlFilter` here because
`Filter` is taken by Mathlib.) -/
def HtmlFilter : Type :=
  String → FilterContext → Except String (String × FilterContext)

/-! ## `src/core/scraper/url_scraper.rs` -/

/-- The result of a completed `reqwest` fetch, as consumed by `run`:
`response.url()`, `response.status().is_success()`, the `CONTENT_TYPE`
header (when present and readable as a string), and `response.text()`. -/
structure FetchResult where
  effective_url : String
  status_success : Bool
  content_type : Option String
  body : String

/-- Oracles for the effectful collaborators of the crawl loop:
`regex::Regex::new` (`none` = invalid pattern, otherwise the compiled
matcher), `url::Url::parse(url).path()` (`none` = parse error), the HTTP
client (`Err` = network failure), and the hrefs selected by `a[href]`
from a parsed HTML document. -/
structure CrawlEnv where
  compileRegex : String → Option (String → Bool)
  parseUrlPath : String → Option String
  fetch : String → Except String FetchResult
  extractHrefs : String → List String

/-- `regex.is_match(path)` guarded by `Regex::new(pattern)` succeeding
(src/core/scraper/url_scraper.rs lines 248-249 and 268-269): an invalid
pattern matches nothing. -/
def regexMatches (env : CrawlEnv) (pattern path : String) : Bool :=
  match env.compileRegex pattern with
  | some isMatch => isMatch path
  | none => false

/-- `UrlScraper` (src/core/scraper/url_scraper.rs lines 18-57). -/
structure UrlScraper where
  name : String
  version : String
  base_url : String
  base_urls : Option (List String)
  output_path : String
  root_path : String
  slug : String
  release : String
  initial_paths : List String
  skip_paths : List String
  skip_patterns : List String
  only : Option (List String)
  only_patterns : Option (List String)
  trailing_slash : Bool
  root_title : String
  attribution : String
  links : List (String × String)
  filters : List HtmlFilter
  skip_link : Option (String → Bool)

/-- `UrlScraper::get_base_urls` (src/core/scraper/url_scraper.rs
lines 192-198). -/
def UrlScraper.get_base_urls (sc : UrlScraper) : List String :=
  match sc.base_urls with
  | some urls => urls
  | none => [sc.base_url]

/-- Rust `str::trim_start_matches` with a string pattern: repeatedly remove
the pattern from the front.  The structural fuel `n` is bounded below by the
list length, which suffices because each removal of a non-empty pattern
strictly shortens the list (an empty pattern removes nothing). -/
def trimStartListFuel (pat : List Char) : Nat → List Char → List Char
  | 0, l => l
  | n + 1, l =>
    if pat.isEmpty then l
    else if pat.isPrefixOf l then trimStartListFuel pat n (l.drop pat.length)
    else l

/-- Rust `url.trim_start_matches(base_url)`. -/
def trimStartMatchesStr (s pat : String) : String :=
  String.mk (trimStartListFuel pat.toList s.toList.length s.toList)

/-- Rust `path.trim_start_matches('/')`: drop every leading slash. -/
def trimLeadingSlashes (s : String) : String :=
  String.mk (s.toList.dropWhile (fun c => c == '/'))

/-- `UrlScraper::url_to_path` (src/core/scraper/url_scraper.rs
lines 305-331): strip the first matching base URL (falling back to
`Url::parse` when none matches), strip leading slashes, and map the empty
path to `"index"`. -/
def UrlScraper.url_to_path (sc : UrlScraper) (env : CrawlEnv) (url : String) :
    String :=
  match sc.get_base_urls.find? (fun base => startsWithStr url base) with
  | some base_url =>
    let path := trimLeadingSlashes (trimStartMatchesStr url base_url)
    if path.isEmpty then "index" else path
  | none =>
    match env.parseUrlPath url with
    | some p =>
      let path := trimLeadingSlashes p
      if path.isEmpty then "index" else path
    | none => "unknown"

/-- `UrlScraper::should_process_url` (src/core/scraper/url_scraper.rs
lines 220-281).  The checks run in the source order: base-URL membership,
`skip_link` predicate, skip paths, skip patterns, `only` paths,
`only_patterns`; the first failing check returns `false`. -/
def UrlScraper.should_process_url (sc : UrlScraper) (env : CrawlEnv)
    (url : String) : Bool :=
  if !sc.get_base_urls.any (fun base => startsWithStr url base) then false
  else if (sc.skip_link.map (fun f => f url)).getD false then false
  else
    let path := sc.url_to_path env url
    if sc.skip_paths.any (fun p => path == p || startsWithStr path (p ++ "/")) then
      false
    else if sc.skip_patterns.any (fun pat => regexMatches env pat path) then
      false
    else if (match sc.only with
             | some only =>
                 !only.any (fun p => path == p || startsWithStr path (p ++ "/"))
             | none => false) then false
    else if (match sc.only_patterns with
             | some pats => !pats.any (fun pat => regexMatches env pat path)
             | none => false) then false
    else true

/-- `UrlScraper::normalize_url` (src/core/scraper/url_scraper.rs
lines 284-302); the source always returns `Ok`, so the `Result` wrapper is
dropped. -/
def UrlScraper.normalize_url (_sc : UrlScraper) (base_url path : String) :
    String :=
  if startsWithStr path "http://" || startsWithStr path "https://" then path
  else
    let base := if endsWithStr base_url "/" then base_url else base_url ++ "/"
    let normalized_path := if startsWithStr path "/" then dropStr path 1 else path
    base ++ normalized_path

/-- `UrlScraper::get_initial_urls` (src/core/scraper/url_scraper.rs
lines 201-217): the initial paths resolved against the primary base URL,
then every further base URL; the source always returns `Ok`. -/
def UrlScraper.get_initial_urls (sc : UrlScraper) : List String :=
  sc.initial_paths.map (fun path => sc.normalize_url sc.base_url path) ++
    (match sc.base_urls with
     | some base_urls => base_urls.drop 1
     | none => [])

/-- Whether `pat` occurs contiguously in `l`. -/
def listContainsSub (pat : List Char) : List Char → Bool
  | [] => pat.isEmpty
  | c :: cs => pat.isPrefixOf (c :: cs) || listContainsSub pat cs

/-- Rust `str::contains` for string patterns. -/
def containsSubstr (s pat : String) : Bool :=
  listContainsSub pat.toList s.toList

/-- `UrlScraper::should_process_response` (src/core/scraper/url_scraper.rs
lines 344-361): successful status, HTML content type (when the header is
present and readable), then `should_process_url`; the source wraps the
result in `Ok` on every path, so the `Result` wrapper is dropped. -/
def UrlScraper.should_process_response (sc : UrlScraper) (env : CrawlEnv)
    (resp : FetchResult) (url : String) : Bool :=
  if !resp.status_success then false
  else if (match resp.content_type with
           | some ct => !containsSubstr ct "text/html"
           | none => false) then false
  else sc.should_process_url env url

/-- `UrlScraper::extract_links` (src/core/scraper/url_scraper.rs
lines 364-381): every `href` of the parsed document, normalized against the
page's URL (`normalize_url` never fails). -/
def UrlScraper.extract_links (sc : UrlScraper) (env : CrawlEnv)
    (html base_url : String) : List String :=
  (env.extractHrefs html).map (fun href => sc.normalize_url base_url href)

/-- `UrlScraper::create_entry` (src/core/scraper/url_scraper.rs
lines 384-395). -/
def UrlScraper.create_entry (_sc : UrlScraper) (path : String) :
    String × String × String :=
  (path, path, "Other")

/-- The `FilterContext` built for a fetched page
(src/core/scraper/url_scraper.rs lines 494-511). -/
def UrlScraper.initialContext (sc : UrlScraper) (env : CrawlEnv)
    (url html : String) : FilterContext :=
  { options := [], base_url := sc.base_url, links := [],
    root_url := sc.base_url, root_path := sc.root_path,
    version := sc.version, release := sc.release,
    initial_paths := sc.initial_paths, slug := sc.slug,
    current_path := sc.url_to_path env url, current_url := url,
    attribution := some sc.attribution, html := html, title := "",
    content := "", additional_entries := [] }

/-- The filter loop (src/core/scraper/url_scraper.rs lines 514-521): apply
each filter to the context's current HTML, storing the filtered HTML back;
a filter error aborts the whole run via `?`. -/
def applyFilters : List HtmlFilter → FilterContext → Except String FilterContext
  | [], ctx => .ok ctx
  | f :: rest, ctx =>
    match f ctx.html ctx with
    | .error e => .error e
    | .ok fc => applyFilters rest { fc.2 with html := fc.1 }

/-- The mutable state of one `UrlScraper::run` crawl
(src/core/scraper/url_scraper.rs lines 433-438), plus a ghost log
`fetched` recording every URL passed to `fetch_url`, used only to state
specification properties. -/
structure CrawlState where
  queue : List String
  visited : List String
  entries : List (String × String × String)
  pages : List (String × String)
  redirections : List (String × String)
  fetched : List String

/-- The page-storing tail of the loop body
(src/core/scraper/url_scraper.rs lines 531-542): when the filtered content
is non-empty, store (path → content) and push the primary entry; then push
every additional entry of the context. -/
def UrlScraper.storePage (sc : UrlScraper) (env : CrawlEnv) (url : String)
    (ctx : FilterContext) (s : CrawlState) : CrawlState :=
  let s :=
    if !ctx.content.isEmpty then
      let path := sc.url_to_path env url
      { s with entries := s.entries ++ [sc.create_entry path],
               pages := ainsert s.pages path ctx.content }
    else s
  { s with entries := s.entries ++ ctx.additional_entries }

/-- The redirect-recording step of the loop body
(src/core/scraper/url_scraper.rs lines 476-480): when the effective URL of
the response differs from the requested URL, record the redirection. -/
def UrlScraper.recordRedirect (url : String) (resp : FetchResult)
    (s : CrawlState) : CrawlState :=
  if resp.effective_url ≠ url then
    { s with redirections := ainsert s.redirections url resp.effective_url }
  else s

/-- The response-handling part of the loop body
(src/core/scraper/url_scraper.rs lines 474-543): record a redirect, re-check
the response, run the filters (a filter error aborts the run via `?`),
enqueue the freshly discovered unvisited links, and store the page. -/
def UrlScraper.processResp (sc : UrlScraper) (env : CrawlEnv) (url : String)
    (resp : FetchResult) (s : CrawlState) : Except String CrawlState :=
  let s := UrlScraper.recordRedirect url resp s
  if !sc.should_process_response env resp url then .ok s
  else
    match applyFilters sc.filters (sc.initialContext env url resp.body) with
    | .error e => .error e
    | .ok ctx =>
      let new_urls := sc.extract_links env ctx.html url
      let s :=
        { s with queue :=
            s.queue ++ new_urls.filter (fun u => !s.visited.contains u) }
      .ok (sc.storePage env url ctx s)

/-- The fetch-and-process part of the loop body
(src/core/scraper/url_scraper.rs lines 473-547): fetch the URL (a network
error is logged and the URL dropped) and hand the response to
`processResp`.  The ghost `fetched` log records the `fetch_url` call. -/
def UrlScraper.processUrl (sc : UrlScraper) (env : CrawlEnv) (url : String)
    (s : CrawlState) : Except String CrawlState :=
  let s := { s with fetched := s.fetched ++ [url] }
  match env.fetch url with
  | .error _ => .ok s
  | .ok resp => sc.processResp env url resp s

/-- The breadth-first crawl loop (src/core/scraper/url_scraper.rs
lines 451-548): pop the frontier, drop visited URLs and URLs rejected by
`should_process_url`, mark the survivor visited and process it.  The inline
rate-limiting sleep (lines 464-470) only shapes timing and is not modelled.
`fuel` bounds the number of iterations (the source loops until the queue is
empty); exhausted fuel returns the state reached so far. -/
def UrlScraper.crawlLoop (sc : UrlScraper) (env : CrawlEnv) :
    Nat → CrawlState → Except String CrawlState
  | 0, s => .ok s
  | fuel + 1, s =>
    match s.queue with
    | [] => .ok s
    | url :: rest =>
      let s := { s with queue := rest }
      if s.visited.contains url then sc.crawlLoop env fuel s
      else if !sc.should_process_url env url then sc.crawlLoop env fuel s
      else
        let s := { s with visited := s.visited ++ [url] }
        match sc.processUrl env url s with
        | .error e => .error e
        | .ok s' => sc.crawlLoop env fuel s'

/-- The crawling part of `UrlScraper::run` (src/core/scraper/url_scraper.rs
lines 431-548): start from the initial URLs with everything else empty and
run the loop.  The surrounding file-system writes and the post-loop
redirect fix-up (lines 410-429 and 550-596) are not needed by the claims
about the loop. -/
def UrlScraper.run (sc : UrlScraper) (env : CrawlEnv) (fuel : Nat) :
    Except String CrawlState :=
  sc.crawlLoop env fuel
    { queue := sc.get_initial_urls, visited := [], entries := [],
      pages := [], redirections := [], fetched := [] }

/-- A URL selected by a skip rule of the policy: the `skip_link` predicate,
a skip path, or a skip pattern (src/core/scraper/url_scraper.rs
lines 227-253). -/
def UrlScraper.skipSelects (sc : UrlScraper) (env : CrawlEnv) (url : String) :
    Prop :=
  (sc.skip_link.map (fun f => f url)).getD false = true ∨
  sc.skip_paths.any (fun p =>
    sc.url_to_path env url == p ||
      startsWithStr (sc.url_to_path env url) (p ++ "/")) = true ∨
  sc.skip_patterns.any (fun pat =>
    regexMatches env pat (sc.url_to_path env url)) = true

/-- A URL selected by an allow rule of the policy: an `only` path or an
`only_patterns` pattern (src/core/scraper/url_scraper.rs lines 255-278). -/
def UrlScraper.allowSelects (sc : UrlScraper) (env : CrawlEnv) (url : String) :
    Prop :=
  (∃ l, sc.only = some l ∧
    l.any (fun p =>
      sc.url_to_path env url == p ||
        startsWithStr (sc.url_to_path env url) (p ++ "/")) = true) ∨
  (∃ l, sc.only_patterns = some l ∧
    l.any (fun pat => regexMatches env pat (sc.url_to_path env url)) = true)

/-- `UrlScraper::new` (src/core/scraper/url_scraper.rs lines 61-83). -/
def UrlScraper.new (name version base_url output_path : String) : UrlScraper :=
  { name := name, version := version, base_url := base_url, base_urls := none,
    output_path := output_path, root_path := "/",
    slug := replaceChar (toLowerStr name) ' ' "_", release := version,
    initial_paths := ["/"], skip_paths := [], skip_patterns := [],
    only := none, only_patterns := none, trailing_slash := false,
    root_title := name, attribution := "", links := [], filters := [],
    skip_link := none }

/-- Invariant satisfied by every `EntryIndex` reachable from
`EntryIndex::new` by `add` calls. -/
def EntryIndex.Inv (s : EntryIndex) : Prop :=
  s.entries.length = s.index.length ∧
  s.entries.length = sumCounts s.types ∧
  (∀ kt ∈ s.types,
    1 ≤ kt.2.count ∧ kt.2.slug = toLowerStr kt.2.name ∧ kt.2.name = kt.1) ∧
  (∀ e : IndexEntry, e ∈ s.entries ↔ e ∈ s.index) ∧
  s.entries.Nodup ∧ s.index.Nodup

/-! ## Concrete instances used by witnesses and counterexamples -/

/-- An environment whose oracles are all inert: no pattern compiles, no URL
parses, every fetch fails, no document yields links. -/
def envNoNet : CrawlEnv :=
  { compileRegex := fun _ => none, parseUrlPath := fun _ => none,
    fetch := fun _ => .error "network unreachable",
    extractHrefs := fun _ => [] }

/-- A `Url::parse` oracle mapping one concrete URL to path `/a` and every
other URL to path `/b`. -/
def parsePathAB : String → Option String :=
  fun u => if u = "https://ex.com/a" then some "/a" else some "/b"

/-- A `Url::parse` oracle mapping one concrete URL to path `/A` and every
other URL to path `/a`: two paths equal up to letter case. -/
def parsePathCase : String → Option String :=
  fun u => if u = "https://ex.com/A" then some "/A" else some "/a"

/-- A concrete scraper policy whose skip list and allow list both select the
path `skip`. -/
def scSkipAndAllow : UrlScraper :=
  { UrlScraper.new "Doc" "1.0" "https://e" "out" with
    skip_paths := ["skip"], only := some ["skip"] }

/-- A filter context whose pipeline left `content` empty but produced one
additional entry. -/
def ctxEmptyContent : FilterContext :=
  { (UrlScraper.new "Doc" "1.0" "https://e" "out").initialContext envNoNet
      "https://e/page" "<html></html>" with
    additional_entries := [("extra", "extra/path", "Other")] }

/-- The empty crawl state. -/
def emptyCrawlState : CrawlState :=
  { queue := [], visited := [], entries := [], pages := [], redirections := [],
    fetched := [] }

/-! ## Theorems -/

/-- Claim C3 (status: code bug).  The repository's own tests
(src/core/doc.rs lines 491-504) and the spec's examples demand
`sort_entries("1.10", "1.2") = Greater`, `sort_entries("2.1", "1.2") =
Greater` and `split_ints("1.2") = ["1", ".2"]`, but the code splits runs at
the wrong boundary (a run ends just before a digit run starts, so
`split_ints "1.2" = ["1.", "2"]`), turns every non-final run into `"0"`
(`"1."` fails `parse::<u32>`), and compares the final runs as literal
strings, so `"10" < "2"`; the sort of `["1.10", "1.2", "2.1"]` therefore
comes out `["2.1", "1.10", "1.2"]`, not the specified
`["1.2", "1.10", "2.1"]`. -/
theorem sort_entries_fails_spec_examples :
    sort_entries "1.10" "1.2" = Ordering.lt ∧
    sort_entries "2.1" "1.2" = Ordering.lt ∧
    split_ints "1.2" = ["1.", "2"] ∧
    sort_entries "1.2" "2.1" = Ordering.gt := by
  refine ⟨?_, ?_, ?_, ?_⟩ <;> decide

/-- Helper: a redirect map with no remembered path redirections rewrites
nothing. -/
theorem foldl_applyRedirectStep_nil (l : List (String × String))
    (acc : List (String × String)) :
    l.foldl (fun cur kv => applyRedirectStep [] cur kv.1) acc = acc := by
  induction l generalizing acc with
  | nil => rfl
  | cons hd tl ih => exact ih acc

/-- Claim C5.  With pages `{"/a": "X"}` and one recorded redirect from a URL
whose parsed path is `/a` to a URL whose parsed path is `/b`,
`apply_redirections_to_paths` produces exactly `{"/b": "X"}`, which has no
`/a` key. -/
theorem apply_redirections_single_redirect (parseUrl : String → Option String)
    (from_url to_url : String)
    (hf : parseUrl from_url = some "/a") (ht : parseUrl to_url = some "/b") :
    FixRedirections.apply_redirections_to_paths parseUrl ⟨[(from_url, to_url)]⟩
        [("/a", "X")] = .ok [("/b", "X")] ∧
    alookup [("/b", "X")] "/a" = none := by
  constructor
  · unfold FixRedirections.apply_redirections_to_paths buildPathRedirections
      FixRedirections.path_from_url
    rw [hf, ht]
    rfl
  · rfl

/-- Witness for C5 at a concrete parse oracle and URLs. -/
theorem apply_redirections_single_redirect_witness :
    parsePathAB "https://ex.com/a" = some "/a" ∧
    parsePathAB "https://ex.com/b" = some "/b" ∧
    (FixRedirections.apply_redirections_to_paths parsePathAB
        ⟨[("https://ex.com/a", "https://ex.com/b")]⟩ [("/a", "X")]
        = .ok [("/b", "X")] ∧
      alookup [("/b", "X")] "/a" = none) :=
  ⟨rfl, rfl,
    apply_redirections_single_redirect parsePathAB "https://ex.com/a"
      "https://ex.com/b" rfl rfl⟩

/-- Counterexample to claim C6 as stated: a recorded redirect pair whose
derived paths `/A` and `/a` are equal case-insensitively (their lowercase
forms agree) nevertheless has a remapping remembered — the source compares
the two paths case-sensitively (src/core/scraper/fix_redirections.rs
line 68) — and applying the resolver rewrites the page map
`{"/A": "X"}` to `{"/a": "X"}`, so the map does not stay unchanged. -/
theorem redirect_case_insensitive_pair_rewrites_map :
    toLowerStr "/A" = toLowerStr "/a" ∧
    FixRedirections.apply_redirections_to_paths parsePathCase
        ⟨[("https://ex.com/A", "https://ex.com/a")]⟩ [("/A", "X")]
      = .ok [("/a", "X")] ∧
    [("/a", "X")] ≠ [("/A", "X")] := by
  refine ⟨rfl, rfl, by decide⟩

/-- Claim C6 (amended): for a recorded redirect pair whose derived from-path
and to-path are exactly equal (the source compares them case-sensitively),
no path remapping is remembered, and applying the redirect resolver leaves
any page map unchanged. -/
theorem redirect_equal_paths_leave_map_unchanged
    (parseUrl : String → Option String) (from_url to_url p : String)
    (paths : List (String × String))
    (hf : parseUrl from_url = some p) (ht : parseUrl to_url = some p) :
    FixRedirections.apply_redirections_to_paths parseUrl ⟨[(from_url, to_url)]⟩
        paths = .ok paths := by
  unfold FixRedirections.apply_redirections_to_paths buildPathRedirections
    FixRedirections.path_from_url
  rw [hf, ht]
  simp [buildPathRedirections, foldl_applyRedirectStep_nil]

/-- Witness for the amended C6 at a concrete parse oracle, URLs and page map. -/
theorem redirect_equal_paths_leave_map_unchanged_witness :
    parsePathAB "https://ex.com/x" = some "/b" ∧
    parsePathAB "https://ex.com/y" = some "/b" ∧
    FixRedirections.apply_redirections_to_paths parsePathAB
        ⟨[("https://ex.com/x", "https://ex.com/y")]⟩ [("/b", "X")]
      = .ok [("/b", "X")] :=
  ⟨rfl, rfl,
    redirect_equal_paths_leave_map_unchanged parsePathAB "https://ex.com/x"
      "https://ex.com/y" "/b" [("/b", "X")] rfl rfl⟩

/-- Counterexample to claim C4 as stated: a limiter configured with
`limit = 2` and two `wait()` calls within one clock minute (clock readings
0ms and 1000ms, both minute 0) already suspends until the next minute on
the second — that is the `limit`-th, not the `limit+1`-th — call, because
`wait` increments the counter before comparing it with `>= limit`
(src/core/scraper/rate_limiter.rs lines 51-54). -/
theorem rate_limiter_suspends_on_limit_th_call :
    minuteOf 0 = minuteOf 1000 ∧
    ((RateLimiter.new 2 0).wait 0 50).2 = WaitAction.none ∧
    (((RateLimiter.new 2 0).wait 0 50).1.wait 1000 61000).2
      = WaitAction.sleepUntilNextMinute 60 ∧
    (((RateLimiter.new 2 0).wait 0 50).1.wait 1000 61000).1.counter = 1 := by
  refine ⟨rfl, rfl, rfl, rfl⟩

/-- Helper: as long as the counter stays strictly below the limit, calls
within the limiter's current minute leave the minute unchanged, increment
the counter once per call, and only ever sleep for (at most) the 100ms
spacing. -/
theorem iterWait_under_limit (calls : List (Nat × Nat)) (rl : RateLimiter)
    (m : Nat) (hm : rl.current_minute = m)
    (hcount : rl.counter + calls.length < rl.limit)
    (hcalls : ∀ c ∈ calls, minuteOf c.1 = m) :
    (rl.iterWait calls).1.current_minute = m ∧
    (rl.iterWait calls).1.counter = rl.counter + calls.length ∧
    (rl.iterWait calls).1.limit = rl.limit ∧
    ∀ a ∈ (rl.iterWait calls).2, a.withinSpacing := by
  induction calls generalizing rl with
  | nil =>
    refine ⟨hm, by simp [RateLimiter.iterWait], rfl, ?_⟩
    intro a ha
    simp [RateLimiter.iterWait] at ha
  | cons c rest ih =>
    have hc : minuteOf c.1 = m := hcalls c (List.mem_cons_self c rest)
    have hnolimit : ¬ rl.limit ≤ rl.counter + 1 := by
      simp only [List.length_cons] at hcount
      omega
    have hstep : rl.wait c.1 c.2 =
        ({ rl with counter := rl.counter + 1,
                   last_request_time := some c.2 },
         match rl.last_request_time with
         | some last =>
             if c.1 - last < 100 then WaitAction.sleepSpacing (100 - (c.1 - last))
             else WaitAction.none
         | none => WaitAction.none) := by
      unfold RateLimiter.wait
      simp [hm, hc, hnolimit]
    have hcounterproj :
        ({ rl with counter := rl.counter + 1,
                   last_request_time := some c.2 } : RateLimiter).counter
          = rl.counter + 1 := rfl
    have hrest := ih { rl with counter := rl.counter + 1,
                               last_request_time := some c.2 }
      hm (by
        show rl.counter + 1 + rest.length < rl.limit
        simp only [List.length_cons] at hcount
        omega)
      (fun c' hc' => hcalls c' (List.mem_cons_of_mem c hc'))
    unfold RateLimiter.iterWait
    rw [hstep]
    refine ⟨hrest.1, ?_, hrest.2.2.1, ?_⟩
    · rw [hrest.2.1, hcounterproj]
      simp only [List.length_cons]
      omega
    · intro a ha
      simp only [List.mem_cons] at ha
      rcases ha with ha | ha
      · subst ha
        cases hl : rl.last_request_time with
        | none => simp [WaitAction.withinSpacing]
        | some last =>
          by_cases hlt : c.1 - last < 100
          · simp [hlt, WaitAction.withinSpacing]
          · simp [hlt, WaitAction.withinSpacing]
      · exact hrest.2.2.2 a ha

/-- Claim C4 (amended).  For a limiter configured with `limit` requests per
minute, the first `limit - 1` calls to `wait()` within a single clock
minute complete without entering the until-next-minute suspension
(delaying at most the 100ms minimum inter-request spacing), and already the
`limit`-th call within that minute suspends until the next minute boundary
plus a one-second margin (`61 - seconds` seconds), after which the counter
is reset to 1 — the source compares `counter >= limit` after incrementing,
so the suspension fires one call earlier than the claim states. -/
theorem rate_limiter_first_calls_then_suspend (L t0 m : Nat)
    (calls : List (Nat × Nat)) (now tEnd : Nat)
    (hstart : minuteOf t0 = m)
    (hlen : calls.length + 1 = L)
    (hcalls : ∀ c ∈ calls, minuteOf c.1 = m)
    (hnow : minuteOf now = m) :
    (∀ a ∈ ((RateLimiter.new L t0).iterWait calls).2, a.withinSpacing) ∧
    ((((RateLimiter.new L t0).iterWait calls).1).wait now tEnd).2
      = WaitAction.sleepUntilNextMinute (61 - now / 1000 % 60) ∧
    ((((RateLimiter.new L t0).iterWait calls).1).wait now tEnd).1.counter
      = 1 := by
  have h0 := iterWait_under_limit calls (RateLimiter.new L t0) m
    (by simp [RateLimiter.new, hstart])
    (by show 0 + calls.length < L; omega) hcalls
  obtain ⟨h1, h2, h3, h4⟩ := h0
  have hcnt : ((RateLimiter.new L t0).iterWait calls).1.counter
      = calls.length := by
    rw [h2]
    show 0 + calls.length = calls.length
    omega
  have hlim : ((RateLimiter.new L t0).iterWait calls).1.limit = L := h3
  have hsus : L ≤ calls.length + 1 := by omega
  refine ⟨h4, ?_, ?_⟩
  · unfold RateLimiter.wait
    rw [hnow, h1]
    simp [hcnt, hlim, hsus]
  · unfold RateLimiter.wait
    rw [hnow, h1]
    simp [hcnt, hlim, hsus]

/-- Witness for the amended C4: limit 2, one in-minute call, then the
second call suspends. -/
theorem rate_limiter_first_calls_then_suspend_witness :
    minuteOf 0 = 0 ∧ ([((0 : Nat), (50 : Nat))].length + 1 = 2) ∧
    (∀ c ∈ [((0 : Nat), (50 : Nat))], minuteOf c.1 = 0) ∧ minuteOf 1000 = 0 ∧
    ((∀ a ∈ ((RateLimiter.new 2 0).iterWait [(0, 50)]).2, a.withinSpacing) ∧
      ((((RateLimiter.new 2 0).iterWait [(0, 50)]).1).wait 1000 61000).2
        = WaitAction.sleepUntilNextMinute (61 - 1000 / 1000 % 60) ∧
      ((((RateLimiter.new 2 0).iterWait [(0, 50)]).1).wait 1000 61000).1.counter
        = 1) :=
  ⟨rfl, rfl, by decide, rfl,
    rate_limiter_first_calls_then_suspend 2 0 0 [(0, 50)] 1000 61000 rfl rfl
      (by decide) rfl⟩

/-- Claim C7.  For every URL within a base URL that is selected both by a
skip rule (`skip_link` predicate, skip path, or skip pattern) and by an
allow rule (`only` path or `only_patterns` pattern), `should_process_url`
returns false: skip wins.  The embedded definition performs the checks in
the source order — base-URL membership, skip predicate, skip paths, skip
regex, allow paths, allow regex — and each skip check short-circuits to
false before any allow check runs. -/
theorem should_process_url_skip_wins (sc : UrlScraper) (env : CrawlEnv)
    (url : String)
    (hbase : sc.get_base_urls.any (fun base => startsWithStr url base) = true)
    (hskip : sc.skipSelects env url)
    (hallow : sc.allowSelects env url) :
    sc.should_process_url env url = false := by
  unfold UrlScraper.should_process_url
  rw [hbase]
  unfold UrlScraper.skipSelects at hskip
  rcases hskip with h | h | h
  · simp [h]
  · simp [h]
  · simp [h]

/-- Witness for C7: a policy whose skip list and allow list both select
`https://e/skip`. -/
theorem should_process_url_skip_wins_witness :
    scSkipAndAllow.get_base_urls.any
        (fun base => startsWithStr "https://e/skip" base) = true ∧
    scSkipAndAllow.should_process_url envNoNet "https://e/skip" = false :=
  ⟨by decide,
    should_process_url_skip_wins scSkipAndAllow envNoNet "https://e/skip"
      (by decide) (Or.inr (Or.inl (by decide)))
      (Or.inl ⟨["skip"], rfl, by decide⟩)⟩

/-- Claim C9.  `should_process_url` is a total boolean function of the
policy and URL, and a pattern the regex oracle rejects is treated as
matching nothing: prepending a malformed pattern to the skip patterns
changes nothing (it excludes no URL), prepending a malformed pattern to an
`only_patterns` list changes nothing (it admits no URL through that
pattern), and an `only_patterns` list consisting solely of malformed
patterns admits no URL at all. -/
theorem should_process_url_total_on_malformed (sc : UrlScraper)
    (env : CrawlEnv) (p url : String) (l : List String)
    (hp : env.compileRegex p = none)
    (hl : ∀ q ∈ l, env.compileRegex q = none) :
    (UrlScraper.should_process_url
        { sc with skip_patterns := p :: sc.skip_patterns } env url
      = sc.should_process_url env url) ∧
    (UrlScraper.should_process_url
        { sc with only_patterns := some (p :: l) } env url
      = UrlScraper.should_process_url
          { sc with only_patterns := some l } env url) ∧
    (UrlScraper.should_process_url
        { sc with only_patterns := some l } env url = false) := by
  have hpfalse : ∀ path, regexMatches env p path = false := by
    intro path
    simp [regexMatches, hp]
  have hany : ∀ path, l.any (fun pat => regexMatches env pat path) = false := by
    intro path
    rw [List.any_eq_false]
    intro q hq
    simp [regexMatches, hl q hq]
  refine ⟨?_, ?_, ?_⟩
  · simp only [UrlScraper.should_process_url, UrlScraper.url_to_path,
      UrlScraper.get_base_urls, List.any_cons, hpfalse, Bool.false_or]
  · simp only [UrlScraper.should_process_url, UrlScraper.url_to_path,
      UrlScraper.get_base_urls, List.any_cons, hpfalse, Bool.false_or]
  · simp only [UrlScraper.should_process_url, UrlScraper.url_to_path,
      UrlScraper.get_base_urls, hany]
    simp

/-- Witness for C9 at a concrete policy, oracle and pattern. -/
theorem should_process_url_total_on_malformed_witness :
    envNoNet.compileRegex "(" = none ∧
    (∀ q ∈ ["(", "["], envNoNet.compileRegex q = none) ∧
    ((UrlScraper.should_process_url
        { UrlScraper.new "Doc" "1.0" "https://e" "out" with
          skip_patterns :=
            "(" :: (UrlScraper.new "Doc" "1.0" "https://e" "out").skip_patterns }
        envNoNet "https://e/x"
      = (UrlScraper.new "Doc" "1.0" "https://e" "out").should_process_url
          envNoNet "https://e/x") ∧
    (UrlScraper.should_process_url
        { UrlScraper.new "Doc" "1.0" "https://e" "out" with
          only_patterns := some ("(" :: ["(", "["]) } envNoNet "https://e/x"
      = UrlScraper.should_process_url
          { UrlScraper.new "Doc" "1.0" "https://e" "out" with
            only_patterns := some ["(", "["] } envNoNet "https://e/x") ∧
    (UrlScraper.should_process_url
        { UrlScraper.new "Doc" "1.0" "https://e" "out" with
          only_patterns := some ["(", "["] } envNoNet "https://e/x" = false)) :=
  ⟨rfl, fun _ _ => rfl,
    should_process_url_total_on_malformed
      (UrlScraper.new "Doc" "1.0" "https://e" "out") envNoNet "(" "https://e/x"
      ["(", "["] rfl (fun _ _ => rfl)⟩

/-- Counterexample to claim C8 as stated: a page whose filter context ends
with empty `content` but one additional entry.  No page is stored and no
primary entry is appended, but the additional entry IS appended — the
source pushes `context.additional_entries` outside the
`if !context.content.is_empty()` guard (src/core/scraper/url_scraper.rs
lines 539-542) — so "no entries are appended for that page" fails. -/
theorem store_page_empty_content_still_appends_additional :
    ctxEmptyContent.content = "" ∧
    ((UrlScraper.new "Doc" "1.0" "https://e" "out").storePage envNoNet
        "https://e/page" ctxEmptyContent emptyCrawlState).entries
      = [("extra", "extra/path", "Other")] ∧
    ((UrlScraper.new "Doc" "1.0" "https://e" "out").storePage envNoNet
        "https://e/page" ctxEmptyContent emptyCrawlState).entries
      ≠ emptyCrawlState.entries := by
  refine ⟨rfl, rfl, by decide⟩

/-- Claim C8 (amended).  For every fetched page: when the filter context's
`content` is empty after the pipeline runs, no (path → content) pair is
stored and the primary entry is not appended, but the context's additional
entries are still appended; when `content` is non-empty, the page is stored
under its path and the primary entry plus all additional entries are
appended. -/
theorem store_page_characterization (sc : UrlScraper) (env : CrawlEnv)
    (url : String) (ctx : FilterContext) (s : CrawlState) :
    (ctx.content.isEmpty = true →
      (sc.storePage env url ctx s).pages = s.pages ∧
      (sc.storePage env url ctx s).entries
        = s.entries ++ ctx.additional_entries) ∧
    (ctx.content.isEmpty = false →
      (sc.storePage env url ctx s).pages
        = ainsert s.pages (sc.url_to_path env url) ctx.content ∧
      (sc.storePage env url ctx s).entries
        = s.entries ++ [sc.create_entry (sc.url_to_path env url)]
            ++ ctx.additional_entries) := by
  constructor
  · intro h
    unfold UrlScraper.storePage
    rw [h]
    simp
  · intro h
    unfold UrlScraper.storePage
    rw [h]
    simp

/-- Witness for the amended C8 on both sides of the content test. -/
theorem store_page_characterization_witness :
    ctxEmptyContent.content.isEmpty = true ∧
    (((UrlScraper.new "Doc" "1.0" "https://e" "out").storePage envNoNet
        "https://e/page" ctxEmptyContent emptyCrawlState).pages
      = emptyCrawlState.pages ∧
    ((UrlScraper.new "Doc" "1.0" "https://e" "out").storePage envNoNet
        "https://e/page" ctxEmptyContent emptyCrawlState).entries
      = emptyCrawlState.entries ++ ctxEmptyContent.additional_entries) :=
  ⟨rfl,
    (store_page_characterization (UrlScraper.new "Doc" "1.0" "https://e" "out")
      envNoNet "https://e/page" ctxEmptyContent emptyCrawlState).1 rfl⟩

/-- Helper: `sumCounts` over a cons. -/
theorem sumCounts_cons (kv : String × IndexType) (l : List (String × IndexType)) :
    sumCounts (kv :: l) = kv.2.count + sumCounts l := by
  simp [sumCounts]

/-- Helper: `sumCounts` over an appended singleton. -/
theorem sumCounts_append_singleton (l : List (String × IndexType))
    (k : String) (v : IndexType) :
    sumCounts (l ++ [(k, v)]) = sumCounts l + v.count := by
  simp [sumCounts]

/-- Helper: `incrementType` adds exactly one to the total count when the key
is present. -/
theorem sumCounts_incrementType (l : List (String × IndexType)) (k : String)
    (t : IndexType) (h : alookup l k = some t) :
    sumCounts (incrementType l k) = sumCounts l + 1 := by
  induction l with
  | nil => simp [alookup] at h
  | cons hd tl ih =>
    obtain ⟨k', v'⟩ := hd
    by_cases hk : k' = k
    · simp [incrementType, hk, sumCounts_cons]
      omega
    · simp only [alookup, if_neg hk] at h
      simp [incrementType, hk, sumCounts_cons, ih h]
      omega

/-- Helper: a pointwise property of type summaries survives `incrementType`
when it survives a count bump. -/
theorem forall_incrementType {P : String × IndexType → Prop}
    (l : List (String × IndexType)) (k : String)
    (h : ∀ kt ∈ l, P kt)
    (hP : ∀ k' v, P (k', v) → P (k', { v with count := v.count + 1 })) :
    ∀ kt ∈ incrementType l k, P kt := by
  induction l with
  | nil => simp [incrementType]
  | cons hd tl ih =>
    obtain ⟨k', v⟩ := hd
    intro kt hkt
    by_cases hk : k' = k
    · rw [incrementType, if_pos hk] at hkt
      rcases List.mem_cons.1 hkt with h1 | h1
      · subst h1
        exact hP _ _ (h _ (List.mem_cons_self _ _))
      · exact h kt (List.mem_cons_of_mem _ h1)
    · rw [incrementType, if_neg hk] at hkt
      rcases List.mem_cons.1 hkt with h1 | h1
      · subst h1
        exact h _ (List.mem_cons_self _ _)
      · exact ih (fun kt hkt => h kt (List.mem_cons_of_mem _ hkt)) kt h1

/-- Helper: `add` preserves the reachability invariant. -/
theorem Inv_add (s : EntryIndex) (e : IndexEntry) (hs : s.Inv) :
    (s.add e).Inv := by
  obtain ⟨hlen, hsum, htypes, hmem, hnodup, hnodupidx⟩ := hs
  unfold EntryIndex.add
  by_cases he : e ∈ s.index
  · simpa [he] using ⟨hlen, hsum, htypes, hmem, hnodup, hnodupidx⟩
  · have hne : e ∉ s.entries := fun hc => he ((hmem e).1 hc)
    simp only [he, if_neg, ite_false]
    unfold EntryIndex.Inv
    refine ⟨?_, ?_, ?_, ?_, ?_, ?_⟩
    · simp [hlen]
    · cases hlook : alookup s.types e.entry_type with
      | some t =>
        simp only [hlook]
        rw [sumCounts_incrementType s.types e.entry_type t hlook]
        simp [hsum]
      | none =>
        simp only [hlook]
        rw [sumCounts_append_singleton]
        simp [hsum]
    · cases hlook : alookup s.types e.entry_type with
      | some t =>
        simp only [hlook]
        exact forall_incrementType s.types e.entry_type htypes
          (fun k' v hv => ⟨Nat.le_succ_of_le hv.1, hv.2.1, hv.2.2⟩)
      | none =>
        simp only [hlook]
        intro kt hkt
        rcases List.mem_append.1 hkt with h1 | h1
        · exact htypes kt h1
        · rcases List.mem_singleton.1 h1 with rfl
          exact ⟨Nat.le_refl 1, rfl, rfl⟩
    · intro e'
      simp only [List.mem_append, List.mem_cons, List.mem_singleton]
      rw [hmem e']
      tauto
    · simp [List.nodup_append, hnodup, hne]
    · exact List.Nodup.cons he hnodupidx

/-- Helper: every state built by `addAll` satisfies the invariant. -/
theorem Inv_addAll (l : List IndexEntry) : (EntryIndex.addAll l).Inv := by
  suffices h : ∀ s : EntryIndex, s.Inv → (l.foldl EntryIndex.add s).Inv by
    refine h EntryIndex.new ⟨rfl, rfl, ?_, ?_, ?_, ?_⟩
    · intro kt hkt
      simp [EntryIndex.new] at hkt
    · intro e
      simp [EntryIndex.new]
    · exact List.nodup_nil
    · exact List.nodup_nil
  induction l with
  | nil => intro s hs; exact hs
  | cons e tl ih => intro s hs; exact ih (s.add e) (Inv_add s e hs)

/-- Claim C10.  After any sequence of `add` calls on an `EntryIndex` created
by `new()`, the number of stored entries equals the size of the
deduplication set (which is duplicate-free) and equals the sum of all type
counters, and every type summary has count at least 1 and slug equal to the
lowercased type name. -/
theorem entry_index_invariant (l : List IndexEntry) :
    (EntryIndex.addAll l).entries.length = (EntryIndex.addAll l).index.length ∧
    (EntryIndex.addAll l).index.Nodup ∧
    (EntryIndex.addAll l).entries.length
      = sumCounts (EntryIndex.addAll l).types ∧
    (∀ kt ∈ (EntryIndex.addAll l).types,
      1 ≤ kt.2.count ∧ kt.2.slug = toLowerStr kt.2.name) := by
  obtain ⟨h1, h2, h3, _, _, h6⟩ := Inv_addAll l
  exact ⟨h1, h6, h2, fun kt hkt => ⟨(h3 kt hkt).1, (h3 kt hkt).2.1⟩⟩

/-- Witness for C10 at a concrete add sequence (with one duplicate). -/
theorem entry_index_invariant_witness :
    (EntryIndex.addAll [⟨"a", "p", "T"⟩, ⟨"a", "p", "T"⟩, ⟨"b", "q", "U"⟩]).entries.length
      = (EntryIndex.addAll [⟨"a", "p", "T"⟩, ⟨"a", "p", "T"⟩, ⟨"b", "q", "U"⟩]).index.length ∧
    (EntryIndex.addAll [⟨"a", "p", "T"⟩, ⟨"a", "p", "T"⟩, ⟨"b", "q", "U"⟩]).index.Nodup ∧
    (EntryIndex.addAll [⟨"a", "p", "T"⟩, ⟨"a", "p", "T"⟩, ⟨"b", "q", "U"⟩]).entries.length
      = sumCounts (EntryIndex.addAll [⟨"a", "p", "T"⟩, ⟨"a", "p", "T"⟩, ⟨"b", "q", "U"⟩]).types ∧
    (∀ kt ∈ (EntryIndex.addAll [⟨"a", "p", "T"⟩, ⟨"a", "p", "T"⟩, ⟨"b", "q", "U"⟩]).types,
      1 ≤ kt.2.count ∧ kt.2.slug = toLowerStr kt.2.name) :=
  entry_index_invariant [⟨"a", "p", "T"⟩, ⟨"a", "p", "T"⟩, ⟨"b", "q", "U"⟩]

/-- Helper: adding an entry already in the dedup set is a no-op. -/
theorem add_of_mem (s : EntryIndex) (e : IndexEntry) (h : e ∈ s.index) :
    s.add e = s := by
  unfold EntryIndex.add
  simp [h]

/-- Helper: after `add e`, the dedup set holds `e`. -/
theorem mem_index_add (s : EntryIndex) (e : IndexEntry) : e ∈ (s.add e).index := by
  unfold EntryIndex.add
  by_cases h : e ∈ s.index
  · simp [h]
  · simp [h]

/-- Helper: `add` is idempotent. -/
theorem EntryIndex.add_idem (s : EntryIndex) (e : IndexEntry) :
    (s.add e).add e = s.add e :=
  add_of_mem _ _ (mem_index_add s e)

/-- Helper: adding a fresh entry appends it to `entries` and conses it onto
the dedup set. -/
theorem add_entries_fresh (s : EntryIndex) (e : IndexEntry) (h : e ∉ s.index) :
    (s.add e).entries = s.entries ++ [e] ∧ (s.add e).index = e :: s.index := by
  unfold EntryIndex.add
  simp [h]

/-- Helper: on a reachable state, the entry just added occurs exactly once. -/
theorem count_add_self (s : EntryIndex) (e : IndexEntry) (hs : s.Inv) :
    ((s.add e).entries).count e = 1 := by
  obtain ⟨_, _, _, hmem, hnodup, _⟩ := hs
  by_cases h : e ∈ s.index
  · rw [add_of_mem s e h]
    exact List.count_eq_one_of_mem hnodup ((hmem e).2 h)
  · rw [(add_entries_fresh s e h).1]
    have hne : e ∉ s.entries := fun hc => h ((hmem e).1 hc)
    simp [List.count_append, List.count_eq_zero.2 hne]

/-- Helper: `alookup` across an append. -/
theorem alookup_append {α : Type} (l l' : List (String × α)) (k : String) :
    alookup (l ++ l') k =
      match alookup l k with
      | some v => some v
      | none => alookup l' k := by
  induction l with
  | nil => simp [alookup]
  | cons hd tl ih =>
    obtain ⟨k', v'⟩ := hd
    by_cases hk : k' = k
    · simp [alookup, hk]
    · simp [alookup, hk, ih]

/-- Helper: `incrementType` bumps the binding at its key. -/
theorem alookup_incrementType_self (l : List (String × IndexType))
    (k : String) (t : IndexType) (h : alookup l k = some t) :
    alookup (incrementType l k) k = some { t with count := t.count + 1 } := by
  induction l with
  | nil => simp [alookup] at h
  | cons hd tl ih =>
    obtain ⟨k0, v⟩ := hd
    by_cases hk : k0 = k
    · subst hk
      have hv : v = t := by
        simp [alookup] at h
        exact h
      subst hv
      simp [incrementType, alookup]
    · simp only [alookup, if_neg hk] at h
      simp [incrementType, hk, alookup, ih h]

/-- Helper: `incrementType` leaves every other binding unchanged. -/
theorem alookup_incrementType_ne (l : List (String × IndexType))
    (k k' : String) (hne : k' ≠ k) :
    alookup (incrementType l k) k' = alookup l k' := by
  induction l with
  | nil => rfl
  | cons hd tl ih =>
    obtain ⟨k0, v⟩ := hd
    by_cases hk : k0 = k
    · subst hk
      have h0 : k0 ≠ k' := fun hc => hne hc.symm
      simp [incrementType, alookup, h0]
    · by_cases hk' : k0 = k'
      · subst hk'
        simp [incrementType, hk, alookup]
      · simp [incrementType, hk, alookup, hk', ih]

/-- Helper: how one fresh `add` moves every type counter. -/
theorem typeCount_add_fresh (s : EntryIndex) (e : IndexEntry)
    (he : e ∉ s.index) :
    typeCount (s.add e).types e.entry_type
      = typeCount s.types e.entry_type + 1 ∧
    (∀ k, k ≠ e.entry_type →
      typeCount (s.add e).types k = typeCount s.types k) := by
  unfold EntryIndex.add
  simp only [he, ite_false, if_neg]
  cases hlook : alookup s.types e.entry_type with
  | some t =>
    constructor
    · unfold typeCount
      rw [alookup_incrementType_self s.types e.entry_type t hlook, hlook]
    · intro k hk
      unfold typeCount
      rw [alookup_incrementType_ne s.types e.entry_type k hk]
  | none =>
    constructor
    · unfold typeCount
      rw [alookup_append, hlook]
      simp [alookup]
    · intro k hk
      unfold typeCount
      rw [alookup_append]
      cases hl : alookup s.types k with
      | some v => simp
      | none =>
        have h0 : e.entry_type ≠ k := fun hc => hk hc.symm
        simp [alookup, h0]

/-- Claim C2.  On any reachable entry index: adding the same triple a second
time is a no-op (so exactly one copy stays stored and its type counter is
not incremented a second time), and adding two fresh triples with equal
name and path but different types stores both entries and increments (or
creates) two distinct type counters. -/
theorem entry_index_dedup_and_type_split (l : List IndexEntry)
    (e e1 e2 : IndexEntry)
    (hname : e1.name = e2.name) (hpath : e1.path = e2.path)
    (htype : e1.entry_type ≠ e2.entry_type)
    (h1 : e1 ∉ (EntryIndex.addAll l).index)
    (h2 : e2 ∉ (EntryIndex.addAll l).index) :
    ((EntryIndex.addAll l).add e).add e = (EntryIndex.addAll l).add e ∧
    ((EntryIndex.addAll l).add e).entries.count e = 1 ∧
    (((EntryIndex.addAll l).add e1).add e2).entries
      = (EntryIndex.addAll l).entries ++ [e1, e2] ∧
    typeCount (((EntryIndex.addAll l).add e1).add e2).types e1.entry_type
      = typeCount (EntryIndex.addAll l).types e1.entry_type + 1 ∧
    typeCount (((EntryIndex.addAll l).add e1).add e2).types e2.entry_type
      = typeCount (EntryIndex.addAll l).types e2.entry_type + 1 := by
  have hinv := Inv_addAll l
  have hne : e1 ≠ e2 := fun h => htype (by rw [h])
  have h2' : e2 ∉ ((EntryIndex.addAll l).add e1).index := by
    rw [(add_entries_fresh (EntryIndex.addAll l) e1 h1).2]
    intro hc
    rcases List.mem_cons.1 hc with hc | hc
    · exact hne hc.symm
    · exact h2 hc
  refine ⟨EntryIndex.add_idem (EntryIndex.addAll l) e,
    count_add_self (EntryIndex.addAll l) e hinv, ?_, ?_, ?_⟩
  · rw [(add_entries_fresh ((EntryIndex.addAll l).add e1) e2 h2').1,
      (add_entries_fresh (EntryIndex.addAll l) e1 h1).1]
    simp
  · rw [(typeCount_add_fresh ((EntryIndex.addAll l).add e1) e2 h2').2
      e1.entry_type htype]
    exact (typeCount_add_fresh (EntryIndex.addAll l) e1 h1).1
  · rw [(typeCount_add_fresh ((EntryIndex.addAll l).add e1) e2 h2').1]
    rw [(typeCount_add_fresh (EntryIndex.addAll l) e1 h1).2
      e2.entry_type (fun h => htype h.symm)]

/-- Witness for C2: a one-element history, a duplicate insertion, and a
fresh name+path pair with two different types. -/
theorem entry_index_dedup_and_type_split_witness :
    ((⟨"n", "q", "A"⟩ : IndexEntry)
        ∉ (EntryIndex.addAll [⟨"x", "y", "T"⟩]).index) ∧
    ((⟨"n", "q", "B"⟩ : IndexEntry)
        ∉ (EntryIndex.addAll [⟨"x", "y", "T"⟩]).index) ∧
    (((EntryIndex.addAll [⟨"x", "y", "T"⟩]).add ⟨"x", "y", "T"⟩).add
          ⟨"x", "y", "T"⟩
        = (EntryIndex.addAll [⟨"x", "y", "T"⟩]).add ⟨"x", "y", "T"⟩ ∧
      ((EntryIndex.addAll [⟨"x", "y", "T"⟩]).add
          ⟨"x", "y", "T"⟩).entries.count ⟨"x", "y", "T"⟩ = 1 ∧
      (((EntryIndex.addAll [⟨"x", "y", "T"⟩]).add ⟨"n", "q", "A"⟩).add
          ⟨"n", "q", "B"⟩).entries
        = (EntryIndex.addAll [⟨"x", "y", "T"⟩]).entries
            ++ [⟨"n", "q", "A"⟩, ⟨"n", "q", "B"⟩] ∧
      typeCount (((EntryIndex.addAll [⟨"x", "y", "T"⟩]).add
          ⟨"n", "q", "A"⟩).add ⟨"n", "q", "B"⟩).types "A"
        = typeCount (EntryIndex.addAll [⟨"x", "y", "T"⟩]).types "A" + 1 ∧
      typeCount (((EntryIndex.addAll [⟨"x", "y", "T"⟩]).add
          ⟨"n", "q", "A"⟩).add ⟨"n", "q", "B"⟩).types "B"
        = typeCount (EntryIndex.addAll [⟨"x", "y", "T"⟩]).types "B" + 1) :=
  ⟨by decide, by decide,
    entry_index_dedup_and_type_split [⟨"x", "y", "T"⟩] ⟨"x", "y", "T"⟩
      ⟨"n", "q", "A"⟩ ⟨"n", "q", "B"⟩ rfl rfl (by decide) (by decide)
      (by decide)⟩

/-- Helper: a URL starting with no base URL fails the very first check of
`should_process_url`. -/
theorem should_process_url_of_outside_base (sc : UrlScraper) (env : CrawlEnv)
    (url : String)
    (h : sc.get_base_urls.any (fun base => startsWithStr url base) = false) :
    sc.should_process_url env url = false := by
  unfold UrlScraper.should_process_url
  rw [h]
  rfl

/-- Helper: storing a page touches neither the visited set nor the fetch
log. -/
theorem storePage_visited_fetched (sc : UrlScraper) (env : CrawlEnv)
    (url : String) (ctx : FilterContext) (s : CrawlState) :
    (sc.storePage env url ctx s).visited = s.visited ∧
    (sc.storePage env url ctx s).fetched = s.fetched := by
  unfold UrlScraper.storePage
  by_cases h : !ctx.content.isEmpty
  · simp [h]
  · simp [h]

/-- Helper: recording a redirect touches neither the visited set nor the
fetch log. -/
theorem recordRedirect_visited_fetched (url : String) (resp : FetchResult)
    (s : CrawlState) :
    (UrlScraper.recordRedirect url resp s).visited = s.visited ∧
    (UrlScraper.recordRedirect url resp s).fetched = s.fetched := by
  unfold UrlScraper.recordRedirect
  constructor
  · split <;> rfl
  · split <;> rfl

/-- Helper: handling a response touches neither the visited set nor the
fetch log. -/
theorem processResp_visited_fetched (sc : UrlScraper) (env : CrawlEnv)
    (url : String) (resp : FetchResult) (s s' : CrawlState)
    (h : sc.processResp env url resp s = .ok s') :
    s'.visited = s.visited ∧ s'.fetched = s.fetched := by
  unfold UrlScraper.processResp at h
  split at h
  · cases h
    exact recordRedirect_visited_fetched url resp s
  · cases hfl : applyFilters sc.filters (sc.initialContext env url resp.body) with
    | error e =>
      rw [hfl] at h
      cases h
    | ok ctx =>
      rw [hfl] at h
      cases h
      rw [(storePage_visited_fetched sc env url ctx _).1,
        (storePage_visited_fetched sc env url ctx _).2]
      exact recordRedirect_visited_fetched url resp s

/-- Helper: processing a fetched URL appends exactly that URL to the fetch
log and leaves the visited set untouched. -/
theorem processUrl_visited_fetched (sc : UrlScraper) (env : CrawlEnv)
    (url : String) (s s' : CrawlState)
    (h : sc.processUrl env url s = .ok s') :
    s'.visited = s.visited ∧ s'.fetched = s.fetched ++ [url] := by
  unfold UrlScraper.processUrl at h
  cases hf : env.fetch url with
  | error e =>
    rw [hf] at h
    cases h
    exact ⟨rfl, rfl⟩
  | ok resp =>
    rw [hf] at h
    exact processResp_visited_fetched sc env url resp _ s' h

/-- Helper: a URL rejected by `should_process_url` and absent from the
visited set and fetch log stays absent through the whole crawl loop. -/
theorem crawlLoop_never_processes (sc : UrlScraper) (env : CrawlEnv)
    (u : String) (hu : sc.should_process_url env u = false) :
    ∀ (fuel : Nat) (s s' : CrawlState),
      sc.crawlLoop env fuel s = .ok s' →
      u ∉ s.visited → u ∉ s.fetched →
      u ∉ s'.visited ∧ u ∉ s'.fetched := by
  intro fuel
  induction fuel with
  | zero =>
    intro s s' h hv hf
    unfold UrlScraper.crawlLoop at h
    cases h
    exact ⟨hv, hf⟩
  | succ n ih =>
    intro s s' h hv hf
    unfold UrlScraper.crawlLoop at h
    dsimp only [] at h
    split at h
    · cases h
      exact ⟨hv, hf⟩
    · rename_i url rest heq
      split at h
      · exact ih _ s' h hv hf
      · split at h
        · exact ih _ s' h hv hf
        · rename_i hvis hsp'
          have hsp : sc.should_process_url env url = true := by
            simpa using hsp'
          have hur : u ≠ url := by
            intro hc
            rw [← hc, hu] at hsp
            cases hsp
          cases hpu : sc.processUrl env url
              { s with queue := rest, visited := s.visited ++ [url] } with
          | error e =>
            rw [hpu] at h
            cases h
          | ok s2 =>
            rw [hpu] at h
            obtain ⟨h2v, h2f⟩ := processUrl_visited_fetched sc env url _ s2 hpu
            refine ih s2 s' h ?_ ?_
            · rw [h2v]
              simp only [List.mem_append, List.mem_singleton]
              rintro (hc | hc)
              · exact hv hc
              · exact hur hc
            · rw [h2f]
              simp only [List.mem_append, List.mem_singleton]
              rintro (hc | hc)
              · exact hf hc
              · exact hur hc

/-- Claim C1.  For every crawl policy and URL that does not start with any
of the policy's base URLs, `should_process_url` returns false, and a
completed crawl run never passes that URL to `fetch_url` and never inserts
it into the visited set. -/
theorem crawl_never_touches_outside_base (sc : UrlScraper) (env : CrawlEnv)
    (fuel : Nat) (u : String) (s' : CrawlState)
    (hu : sc.get_base_urls.any (fun base => startsWithStr u base) = false)
    (hrun : sc.run env fuel = .ok s') :
    sc.should_process_url env u = false ∧
    u ∉ s'.fetched ∧ u ∉ s'.visited := by
  have h1 := should_process_url_of_outside_base sc env u hu
  have h2 := crawlLoop_never_processes sc env u h1 fuel _ s' hrun
    (by simp) (by simp)
  exact ⟨h1, h2.2, h2.1⟩

/-- Witness for C1: a two-step crawl of `https://e` with every fetch
failing, and the outside URL `http://other/x`. -/
theorem crawl_never_touches_outside_base_witness :
    (UrlScraper.new "Doc" "1.0" "https://e" "out").get_base_urls.any
        (fun base => startsWithStr "http://other/x" base) = false ∧
    (UrlScraper.new "Doc" "1.0" "https://e" "out").run envNoNet 2
      = .ok { queue := [], visited := ["https://e/"], entries := [],
              pages := [], redirections := [], fetched := ["https://e/"] } ∧
    ((UrlScraper.new "Doc" "1.0" "https://e" "out").should_process_url envNoNet
        "http://other/x" = false ∧
      "http://other/x" ∉
        ({ queue := [], visited := ["https://e/"], entries := [], pages := [],
           redirections := [], fetched := ["https://e/"] } : CrawlState).fetched ∧
      "http://other/x" ∉
        ({ queue := [], visited := ["https://e/"], entries := [], pages := [],
           redirections := [], fetched := ["https://e/"] } : CrawlState).visited) :=
  ⟨by decide, rfl,
    crawl_never_touches_outside_base
      (UrlScraper.new "Doc" "1.0" "https://e" "out") envNoNet 2 "http://other/x"
      { queue := [], visited := ["https://e/"], entries := [], pages := [],
        redirections := [], fetched := ["https://e/"] } (by decide) rfl⟩
